import Mathlib

/-!
# Verification of the courtsdk engine orchestration core

A shallow embedding of the control-loop logic of `engine.go` from the
`courtsdk` repository: the stop predicate, the status-signal handler, the
recovery rewind, the shared-cursor range allocator, the sequential recovery
loop and the concurrent replica coordinator.  Go `int` values are modelled
as `Int` (no arithmetic here comes near the 64-bit overflow boundary, so
wrap-around is irrelevant to every statement below).  External effects
(HTTP fetching, Elasticsearch, logging) are abstracted: channels become
explicit lists of emitted codes, and the caller-supplied entry point
becomes a function on engine states.
-/

namespace Courtsdk

/-- The mutable engine record (`type Engine struct` in `engine.go`),
restricted to the fields the control logic reads or writes.  The
collector, the Elasticsearch client, the response channel and the
wait-group are external handles and carry no control-relevant state. -/
structure Engine where
  Court : String := ""
  Base : String := ""
  Failures : Int := 0
  Start : Int := 0
  End : Int := 0
  PageSize : Int := 1
  CurrentIndex : Int := 0
  Recoveries : Int := 0
  MaxFailures : Int := 25
  MaxRecoveries : Int := 5
  IsConcurrent : Bool := false
  MaxReplicas : Int := 0
  ReplicaRange : Int := 0
  UseDefaultChannelControl : Bool := true
  done : Bool := false
  deriving Repr, DecidableEq

/-- `http.StatusOK`. -/
def statusOK : Int := 200

/-- `http.StatusInternalServerError`. -/
def statusInternalServerError : Int := 500

/-- `func (engine *Engine) shouldStop() bool` (engine.go:254-264):
stop when `Failures >= MaxFailures`, else when
`IsConcurrent && CurrentIndex > End`, else when `done`. -/
def Engine.shouldStop (engine : Engine) : Bool :=
  if engine.Failures ≥ engine.MaxFailures then true
  else if engine.IsConcurrent ∧ engine.CurrentIndex > engine.End then true
  else if engine.done then true
  else false

/-- `func (engine *Engine) handleChannelStatus(status int)`
(engine.go:266-272): a non-OK status increments `Failures`; an OK status
decrements it when it is strictly positive. -/
def Engine.handleChannelStatus (engine : Engine) (status : Int) : Engine :=
  if status ≠ statusOK then { engine with Failures := engine.Failures + 1 }
  else if engine.Failures > 0 then { engine with Failures := engine.Failures - 1 }
  else engine

/-- `func (engine *Engine) setRecoveryStart()` (engine.go:360-364):
when `CurrentIndex != 0`, rewind `Start` to
`CurrentIndex - Failures * PageSize`; otherwise do nothing. -/
def Engine.setRecoveryStart (engine : Engine) : Engine :=
  if engine.CurrentIndex ≠ 0 then
    { engine with Start := engine.CurrentIndex - engine.Failures * engine.PageSize }
  else engine

/-- `func (engine *Engine) Done()` (engine.go:389-391): set `done`. -/
def Engine.Done (engine : Engine) : Engine :=
  { engine with done := true }

/-- `func (engine *Engine) Persist(jurisprudence Jurisprudence)`
(engine.go:198-213), abstracted over the upsert outcome `upsertFails`
(`err != nil`): the list of status codes sent on `ResponseChannel`, in
order.  The error branch sends `http.StatusInternalServerError` and then
falls through (there is no `return`), so the final
`engine.ResponseChannel <- http.StatusOK` runs on both paths. -/
def Persist (upsertFails : Bool) : List Int :=
  (if upsertFails then [statusInternalServerError] else []) ++ [statusOK]

/-- `func (engine *Engine) setRange(mutex *sync.Mutex)` (engine.go:348-358),
with the shared cursor `ControlConfig["LastGoRoutineRange"]` passed and
returned explicitly: when the cursor exceeds `-1` it overrides the
engine's `Start`; `End` becomes `Start + ReplicaRange - 1`; the cursor
advances to `End + 1`. -/
def Engine.setRange (engine : Engine) (lastRange : Int) : Engine × Int :=
  let e1 := if lastRange > -1 then { engine with Start := lastRange } else engine
  let e2 := { e1 with End := e1.Start + e1.ReplicaRange - 1 }
  (e2, e2.End + 1)

/-- `func Start(start int) func(*Engine)` (engine.go:45-50), restricted to
its effect on the shared cursor and the `Start` field: seeds
`ControlConfig["LastGoRoutineRange"]` with `start`. -/
def StartOption (start : Int) (engine : Engine) : Engine × Int :=
  ({ engine with Start := start }, start)

/-- The engine state after the status-aggregator goroutine
(`channelControl`, engine.go:235-252) has consumed a list of status
signals in order, each via `handleChannelStatus`. -/
def Engine.applySignals (engine : Engine) (signals : List Int) : Engine :=
  signals.foldl Engine.handleChannelStatus engine

/-- The number of failure signals (non-OK codes) in a signal list. -/
def failureSignals (signals : List Int) : Nat :=
  (signals.filter (fun s => s ≠ statusOK)).length

/-- One allocation from the shared cursor: `setRange` run by a replica
whose requested width is `width`, returning the assigned `(Start, End)`
pair together with the advanced cursor. -/
def allocate (engine : Engine) (width : Int) (cursor : Int) : (Int × Int) × Int :=
  let r := Engine.setRange { engine with ReplicaRange := width } cursor
  ((r.1.Start, r.1.End), r.2)

/-- A sequence of allocations threading the shared cursor, one `setRange`
call per requested width, as successive replica spawns perform under the
mutex. -/
def allocSeq (engine : Engine) (cursor : Int) : List Int → List (Int × Int)
  | [] => []
  | w :: ws =>
    let r := allocate engine w cursor
    r.1 :: allocSeq engine r.2 ws

/-- The recovery loop of `func (engine *Engine) runAsSequential()`
(engine.go:278-292), with the caller-supplied entry point (together with
the status aggregation it drives through the channel) abstracted as a
state transformer, and fuel making the iteration structurally
terminating.  Returns the final engine state and the number of run
attempts performed.  On a failed attempt the loop rewinds via
`setRecoveryStart`, resets `Failures` to zero and increments
`Recoveries`, exactly as lines 287-291 do. -/
def runSeqLoop (entry : Engine → Engine) : Nat → Engine → Engine × Nat
  | 0, e => (e, 0)
  | fuel + 1, e =>
    if e.Recoveries ≤ e.MaxRecoveries then
      let e1 := entry e
      if e1.done then (e1, 1)
      else
        let e2 := e1.setRecoveryStart
        let e3 := { e2 with Failures := 0, Recoveries := e2.Recoveries + 1 }
        let r := runSeqLoop entry fuel e3
        (r.1, r.2 + 1)
    else (e, 0)

/-- `runAsSequential` (engine.go:274-294) after a successful index
connection: `Recoveries` is reset to `0` (line 277) and the recovery
loop runs; `MaxRecoveries + 1` units of fuel are exactly the iterations
the guard `Recoveries <= MaxRecoveries` can admit from `Recoveries = 0`. -/
def runAsSequential (entry : Engine → Engine) (engine : Engine) : Engine × Nat :=
  runSeqLoop entry (engine.MaxRecoveries + 1).toNat { engine with Recoveries := 0 }

/-- The replica coordinator's shared counters (`runAsConcurrent`,
engine.go:296-318): `activeEngines` counts running replicas,
`maxEngines` the remaining pool capacity. -/
structure CoordState where
  activeEngines : Int
  maxEngines : Int
  deriving Repr, DecidableEq

/-- The coordinator's initial counters (engine.go:297-298): no active
replica, capacity `MaxReplicas`. -/
def coordInit (engine : Engine) : CoordState :=
  { activeEngines := 0, maxEngines := engine.MaxReplicas }

/-- The coordinator's exit test (engine.go:303): both counters zero. -/
def coordShouldExit (s : CoordState) : Bool :=
  s.activeEngines = 0 ∧ s.maxEngines = 0

/-- A value received on one of the two control channels
(`activeEnginesChannel` and `maxEnginesChannel`). -/
inductive CoordMsg where
  | activeDelta (v : Int)
  | maxDelta (v : Int)
  deriving Repr, DecidableEq

/-- Applying one received channel value to the counters
(engine.go:307-310). -/
def coordRecv (s : CoordState) : CoordMsg → CoordState
  | .activeDelta v => { s with activeEngines := s.activeEngines + v }
  | .maxDelta v => { s with maxEngines := s.maxEngines + v }

/-- How one spawned replica's run ends (`spawnEngine`,
engine.go:320-346). -/
inductive ReplicaOutcome where
  | succeeded
  | exhausted
  | notConnected
  deriving Repr, DecidableEq

/-- The control messages a replica sends as it finishes, in send order
(engine.go:334, 343, 345): every replica signals activity `-1`; one that
exhausted its recovery budget without success first signals capacity
`-1`. -/
def spawnEngineSignals : ReplicaOutcome → List CoordMsg
  | .succeeded => [.activeDelta (-1)]
  | .exhausted => [.maxDelta (-1), .activeDelta (-1)]
  | .notConnected => [.activeDelta (-1)]

/-- One iteration of the coordinator loop that changes state
(engine.go:302-317): either a pending replica signal is drained, or —
the `default` branch — a new replica is spawned when
`activeEngines < maxEngines`.  Iterations happen only while the exit
test is false. -/
inductive CoordStep : CoordState → CoordState → Prop where
  | recv (s : CoordState) (outcome : ReplicaOutcome) (msg : CoordMsg)
      (hmsg : msg ∈ spawnEngineSignals outcome)
      (hrun : coordShouldExit s = false) :
      CoordStep s (coordRecv s msg)
  | spawn (s : CoordState)
      (hrun : coordShouldExit s = false)
      (hcap : s.activeEngines < s.maxEngines) :
      CoordStep s { s with activeEngines := s.activeEngines + 1 }

end Courtsdk

namespace Courtsdk

/-! ## C1: characterisation of `shouldStop` -/

/-- **C1.** `shouldStop` is true iff failures reached the maximum, or the
run is concurrent and the current index passed the end index, or the done
flag is set; hitting `MaxFailures` exactly stops, and `MaxFailures - 1`
alone does not. -/
theorem shouldStop_iff :
    (∀ engine : Engine, engine.shouldStop = true ↔
      (engine.Failures ≥ engine.MaxFailures ∨
        (engine.IsConcurrent = true ∧ engine.CurrentIndex > engine.End) ∨
        engine.done = true)) ∧
    (∀ engine : Engine, engine.Failures = engine.MaxFailures →
      engine.shouldStop = true) ∧
    (∀ engine : Engine, engine.Failures = engine.MaxFailures - 1 →
      engine.IsConcurrent = false → engine.done = false →
      engine.shouldStop = false) := by
  refine ⟨fun engine => ?_, fun engine h => ?_, fun engine hf hc hd => ?_⟩
  · unfold Engine.shouldStop
    split_ifs with h1 h2 h3 <;> simp_all
  · unfold Engine.shouldStop
    split_ifs with h1 h2 h3 <;> simp_all
  · unfold Engine.shouldStop
    split_ifs with h1 h2 h3 <;> simp_all

/-- Witness for C1: each conjunct applied at concrete engines. -/
theorem shouldStop_iff_witness :
    ({ Failures := 2, MaxFailures := 2 : Engine }.shouldStop = true) ∧
    ({ Failures := 1, MaxFailures := 2 : Engine }.shouldStop = false) := by
  refine ⟨shouldStop_iff.2.1 _ (by decide), shouldStop_iff.2.2 _ (by decide) rfl rfl⟩

/-! ## C9: in sequential mode the end index never stops a run -/

/-- **C9.** With `IsConcurrent = false`, `Failures < MaxFailures` and the
done flag unset, `shouldStop` is false no matter how far `CurrentIndex`
is past `End`: the end index bounds only concurrent runs. -/
theorem shouldStop_sequential_ignores_end (engine : Engine)
    (hc : engine.IsConcurrent = false)
    (hf : engine.Failures < engine.MaxFailures)
    (hd : engine.done = false) :
    engine.shouldStop = false := by
  unfold Engine.shouldStop
  split
  · omega
  · split
    · simp_all
    · split
      · simp_all
      · rfl

/-- Witness for C9: a sequential engine whose index is far past `End`. -/
theorem shouldStop_sequential_ignores_end_witness :
    ({ IsConcurrent := false, Failures := 0, MaxFailures := 25,
       CurrentIndex := 1000000, End := 10 : Engine }.shouldStop = false) :=
  shouldStop_sequential_ignores_end _ rfl (by decide) rfl

/-! ## C10: `setRecoveryStart` is the identity at `CurrentIndex = 0` -/

/-- **C10.** When `CurrentIndex` is exactly `0`, `setRecoveryStart`
leaves the whole engine state unchanged: the rewind formula runs only
under the guard `CurrentIndex != 0`. -/
theorem setRecoveryStart_at_zero_frame (engine : Engine)
    (h : engine.CurrentIndex = 0) :
    engine.setRecoveryStart = engine := by
  unfold Engine.setRecoveryStart
  split
  · simp_all
  · rfl

/-- Witness for C10: a concrete engine with index `0`. -/
theorem setRecoveryStart_at_zero_frame_witness :
    ({ CurrentIndex := 0, Start := 7, Failures := 3, PageSize := 5 : Engine
      }.setRecoveryStart =
      { CurrentIndex := 0, Start := 7, Failures := 3, PageSize := 5 : Engine }) :=
  setRecoveryStart_at_zero_frame _ rfl

/-! ## C8: marking done is idempotent and preserves the counters -/

/-- **C8.** Applying the mark-done operation one or more times leaves
`shouldStop` true, leaves `Failures` and `Recoveries` unchanged, and a
second call has no further effect on the state. -/
theorem done_idempotent_stops (engine : Engine) (n : Nat) :
    (Engine.Done^[n + 1] engine).shouldStop = true ∧
    (Engine.Done^[n + 1] engine).Failures = engine.Failures ∧
    (Engine.Done^[n + 1] engine).Recoveries = engine.Recoveries ∧
    (Engine.Done^[n + 1] engine) = engine.Done := by
  induction n with
  | zero =>
    refine ⟨?_, rfl, rfl, rfl⟩
    unfold Engine.shouldStop Engine.Done
    split
    · rfl
    · split
      · rfl
      · rfl
  | succ k ih =>
    have hstep : Engine.Done^[k + 1 + 1] engine = Engine.Done (Engine.Done^[k + 1] engine) :=
      Function.iterate_succ_apply' _ _ _
    have hfix : Engine.Done (Engine.Done^[k + 1] engine) = Engine.Done^[k + 1] engine := by
      rw [ih.2.2.2]
      rfl
    rw [hstep, hfix]
    exact ih

/-! ## C5: the failure counter stays within `[0, #failure signals]` -/

/-- One step of `handleChannelStatus` keeps `Failures` nonnegative and
adds at most the step's failure count. -/
lemma handleChannelStatus_bounds (engine : Engine) (status : Int)
    (h : 0 ≤ engine.Failures) :
    0 ≤ (engine.handleChannelStatus status).Failures ∧
    (engine.handleChannelStatus status).Failures ≤
      engine.Failures + (if status ≠ statusOK then 1 else 0) := by
  unfold Engine.handleChannelStatus
  split_ifs with h1 h2 <;> simp_all <;> omega

/-- Folding `handleChannelStatus` over any signal list keeps `Failures`
between `0` and its initial value plus the number of failure signals. -/
lemma applySignals_bounds (signals : List Int) :
    ∀ engine : Engine, 0 ≤ engine.Failures →
      0 ≤ (engine.applySignals signals).Failures ∧
      (engine.applySignals signals).Failures ≤
        engine.Failures + (failureSignals signals : Int) := by
  induction signals with
  | nil => intro engine h; simpa [Engine.applySignals, failureSignals] using h
  | cons s rest ih =>
    intro engine h
    have hstep := handleChannelStatus_bounds engine s h
    have hrest := ih (engine.handleChannelStatus s) hstep.1
    have hcount : (failureSignals (s :: rest) : Int) =
        (if s ≠ statusOK then 1 else 0) + (failureSignals rest : Int) := by
      unfold failureSignals
      split_ifs with hs <;> simp_all [List.filter] <;> omega
    refine ⟨hrest.1, ?_⟩
    have := hrest.2
    simp only [Engine.applySignals, List.foldl_cons] at *
    omega

/-- **C5.** Starting from failure count `0`, a non-success signal
increments the counter, a success signal decrements it only when
strictly positive, and after any signal sequence the counter is
nonnegative and bounded by the number of failure signals received. -/
theorem failures_counter_invariant (signals : List Int) (engine : Engine)
    (h0 : engine.Failures = 0) :
    (∀ e : Engine, ∀ s : Int, s ≠ statusOK →
      (e.handleChannelStatus s).Failures = e.Failures + 1) ∧
    (∀ e : Engine, 0 < e.Failures →
      (e.handleChannelStatus statusOK).Failures = e.Failures - 1) ∧
    (∀ e : Engine, e.Failures = 0 →
      (e.handleChannelStatus statusOK).Failures = 0) ∧
    0 ≤ (engine.applySignals signals).Failures ∧
    (engine.applySignals signals).Failures ≤ (failureSignals signals : Int) := by
  have hbounds := applySignals_bounds signals engine (by omega)
  refine ⟨fun e s hs => ?_, fun e he => ?_, fun e he => ?_, hbounds.1, ?_⟩
  · unfold Engine.handleChannelStatus
    split_ifs <;> simp_all
  · unfold Engine.handleChannelStatus
    split_ifs <;> simp_all
  · unfold Engine.handleChannelStatus
    split_ifs <;> simp_all
  · have := hbounds.2
    omega

/-- Witness for C5: a concrete sequence of two failures, three successes
and one failure keeps the counter in bounds. -/
theorem failures_counter_invariant_witness :
    0 ≤ (({ : Engine }).applySignals [500, 500, 200, 200, 200, 500]).Failures ∧
    (({ : Engine }).applySignals [500, 500, 200, 200, 200, 500]).Failures ≤
      (failureSignals [500, 500, 200, 200, 200, 500] : Int) := by
  have h := failures_counter_invariant [500, 500, 200, 200, 200, 500] { : Engine } rfl
  exact ⟨h.2.2.2.1, h.2.2.2.2⟩

/-! ## C2: the range allocator hands out contiguous, disjoint ranges -/

/-- With the cursor above `-1`, `setRange` assigns `Start` from the
cursor, `End = Start + width - 1`, and advances the cursor to
`End + 1`. -/
lemma allocate_cursor_set (engine : Engine) (w cursor : Int) (h : -1 < cursor) :
    allocate engine w cursor = ((cursor, cursor + w - 1), cursor + w) := by
  have h' : cursor + w - 1 + 1 = cursor + w := by omega
  simp [allocate, Engine.setRange, if_pos h, h']

/-- With the cursor not above `-1`, `setRange` keeps the engine's
configured `Start`. -/
lemma allocate_cursor_unset (engine : Engine) (w cursor : Int) (h : ¬ -1 < cursor) :
    allocate engine w cursor = ((engine.Start, engine.Start + w - 1), engine.Start + w) := by
  have h' : engine.Start + w - 1 + 1 = engine.Start + w := by omega
  simp [allocate, Engine.setRange, if_neg h, h']

lemma allocSeq_cons (engine : Engine) (w : Int) (ws : List Int) (cursor : Int)
    (h : 0 ≤ cursor) :
    allocSeq engine cursor (w :: ws) =
      (cursor, cursor + w - 1) :: allocSeq engine (cursor + w) ws := by
  simp [allocSeq, allocate_cursor_set engine w cursor (by omega)]

/-- Allocation sequences from a nonnegative cursor with positive widths:
every assigned range starts at or after the cursor and is well formed,
the first range starts exactly at the cursor, consecutive ranges are
contiguous, and the ranges are pairwise disjoint. -/
lemma allocSeq_spec (engine : Engine) (ws : List Int) :
    ∀ cursor : Int, 0 ≤ cursor → (∀ w ∈ ws, 1 ≤ w) →
      (∀ r ∈ allocSeq engine cursor ws, cursor ≤ r.1 ∧ r.1 ≤ r.2) ∧
      (∀ b ∈ (allocSeq engine cursor ws).head?, b.1 = cursor) ∧
      List.Chain' (fun a b => a.2 + 1 = b.1) (allocSeq engine cursor ws) ∧
      List.Pairwise (fun a b => a.2 < b.1) (allocSeq engine cursor ws) := by
  induction ws with
  | nil => intro cursor _ _; simp [allocSeq]
  | cons w rest ih =>
    intro cursor hc hw
    have hw1 : 1 ≤ w := hw w (by simp)
    have hrest : ∀ x ∈ rest, 1 ≤ x := fun x hx => hw x (by simp [hx])
    have ihr := ih (cursor + w) (by omega) hrest
    rw [allocSeq_cons engine w rest cursor hc]
    refine ⟨?_, ?_, ?_, ?_⟩
    · intro r hr
      rcases List.mem_cons.mp hr with h | h
      · subst h; constructor <;> simp <;> omega
      · have := (ihr.1 r h).1
        have := (ihr.1 r h).2
        omega
    · intro b hb
      simp only [List.head?_cons, Option.mem_some_iff] at hb
      subst hb; rfl
    · rw [List.chain'_cons']
      refine ⟨?_, ihr.2.2.1⟩
      intro b hb
      have := ihr.2.1 b hb
      omega
    · rw [List.pairwise_cons]
      refine ⟨?_, ihr.2.2.2⟩
      intro r hr
      have := (ihr.1 r hr).1
      simp only
      omega

/-- **C2.** Each `setRange` allocation returns `Start` equal to the
shared cursor (or the configured start index when the cursor is the
unset value `-1`), returns `End = Start + width - 1`, and advances the
cursor to `End + 1`; consequently, for every sequence of allocations
from a cursor freshly seeded by the `Start` option with positive widths,
the returned ranges are contiguous (each range's end + 1 is the next
range's start) and pairwise non-overlapping. -/
theorem allocator_contract :
    (∀ (engine : Engine) (w cursor : Int), -1 < cursor →
      allocate engine w cursor = ((cursor, cursor + w - 1), cursor + w)) ∧
    (∀ (engine : Engine) (w : Int),
      allocate engine w (-1) =
        ((engine.Start, engine.Start + w - 1), engine.Start + w)) ∧
    (∀ (engine : Engine) (start : Int) (ws : List Int),
      0 ≤ start → (∀ w ∈ ws, 1 ≤ w) →
      List.Chain' (fun a b => a.2 + 1 = b.1)
        (allocSeq engine (StartOption start engine).2 ws) ∧
      List.Pairwise (fun a b => a.2 < b.1)
        (allocSeq engine (StartOption start engine).2 ws)) := by
  refine ⟨allocate_cursor_set, ?_, ?_⟩
  · intro engine w
    exact allocate_cursor_unset engine w (-1) (by omega)
  · intro engine start ws hs hw
    have h := allocSeq_spec engine ws start hs hw
    exact ⟨h.2.2.1, h.2.2.2⟩

/-- Witness for C2: three allocations of width 10 from a cursor seeded
at 0 produce the contiguous disjoint ranges `[0,9], [10,19], [20,29]`. -/
theorem allocator_contract_witness :
    allocSeq { : Engine } ((StartOption 0 { : Engine }).2) [10, 10, 10] =
      [(0, 9), (10, 19), (20, 29)] ∧
    (List.Chain' (fun a b => a.2 + 1 = b.1)
      (allocSeq { : Engine } ((StartOption 0 { : Engine }).2) [10, 10, 10]) ∧
     List.Pairwise (fun a b => a.2 < b.1)
      (allocSeq { : Engine } ((StartOption 0 { : Engine }).2) [10, 10, 10])) := by
  refine ⟨by decide, allocator_contract.2.2 { : Engine } 0 [10, 10, 10] (by decide) ?_⟩
  intro w hw
  fin_cases hw <;> decide

/-! ## C3: status codes emitted by `Persist` -/

/-- **C3 evidence.** On a failed upsert `Persist` sends two status codes,
`500` followed by `200` (the error branch lacks a `return`, so the
success send runs as well); on a successful upsert it sends exactly
`[200]`.  The spec requires exactly one code per attempt. -/
theorem Persist_failure_sends_two_codes :
    Persist true = [statusInternalServerError, statusOK] ∧
    (Persist true).length = 2 ∧
    Persist false = [statusOK] :=
  ⟨rfl, rfl, rfl⟩

/-! ## C4: the recovery rewind formula -/

/-- **C4 counterexample.** At `CurrentIndex = 0` the rewind is skipped:
with `Failures = 3`, `PageSize = 5`, `Start = 7` the operation leaves
`Start = 7` instead of `0 - 3 * 5 = -15`, so the unconditional-formula
claim fails. -/
theorem setRecoveryStart_not_unconditional :
    ({ CurrentIndex := 0, Failures := 3, PageSize := 5, Start := 7 : Engine
      }.setRecoveryStart).Start ≠ (0 : Int) - 3 * 5 := by
  decide

/-- **C4 (amended).** Whenever `CurrentIndex ≠ 0`, the recovery-start
operation sets `Start` to exactly `CurrentIndex - Failures * PageSize`,
with no clamping (the result may be negative). -/
theorem setRecoveryStart_formula (engine : Engine)
    (h : engine.CurrentIndex ≠ 0) :
    engine.setRecoveryStart.Start =
      engine.CurrentIndex - engine.Failures * engine.PageSize := by
  unfold Engine.setRecoveryStart
  split_ifs <;> simp_all

/-- Witness for C4: `currentIndex = 100`, `failures = 3`, `pageSize = 5`
rewinds to `85`; an unclamped negative result also occurs. -/
theorem setRecoveryStart_formula_witness :
    ({ CurrentIndex := 100, Failures := 3, PageSize := 5 : Engine
      }.setRecoveryStart).Start = 85 ∧
    ({ CurrentIndex := 5, Failures := 3, PageSize := 5 : Engine
      }.setRecoveryStart).Start = -10 := by
  constructor
  · have h := setRecoveryStart_formula
      { CurrentIndex := 100, Failures := 3, PageSize := 5 : Engine } (by decide)
    simpa using h
  · have h := setRecoveryStart_formula
      { CurrentIndex := 5, Failures := 3, PageSize := 5 : Engine } (by decide)
    simpa using h

/-! ## C6: the sequential recovery loop performs `MaxRecoveries + 1` attempts -/

/-- `setRecoveryStart` touches only `Start`. -/
lemma setRecoveryStart_frame (e : Engine) :
    e.setRecoveryStart.done = e.done ∧
    e.setRecoveryStart.Recoveries = e.Recoveries ∧
    e.setRecoveryStart.MaxRecoveries = e.MaxRecoveries := by
  unfold Engine.setRecoveryStart
  split_ifs <;> simp

/-- With an entry point that never marks done and does not touch the
recovery counters, the recovery loop runs one attempt per admissible
recovery value and never ends done. -/
lemma runSeqLoop_count (entry : Engine → Engine)
    (hdone : ∀ e, (entry e).done = false)
    (hrec : ∀ e, (entry e).Recoveries = e.Recoveries)
    (hmax : ∀ e, (entry e).MaxRecoveries = e.MaxRecoveries) :
    ∀ (fuel : Nat) (e : Engine), e.done = false →
      (e.MaxRecoveries + 1 - e.Recoveries).toNat ≤ fuel →
      (runSeqLoop entry fuel e).2 = (e.MaxRecoveries + 1 - e.Recoveries).toNat ∧
      (runSeqLoop entry fuel e).1.done = false := by
  intro fuel
  induction fuel with
  | zero =>
    intro e hd hf
    refine ⟨?_, by simpa [runSeqLoop] using hd⟩
    simp only [runSeqLoop]
    omega
  | succ k ih =>
    intro e hd hf
    by_cases hcond : e.Recoveries ≤ e.MaxRecoveries
    · have hframe := setRecoveryStart_frame (entry e)
      have hcount : ((entry e).setRecoveryStart.Recoveries = e.Recoveries) := by
        rw [hframe.2.1, hrec]
      have hmaxeq : ((entry e).setRecoveryStart.MaxRecoveries = e.MaxRecoveries) := by
        rw [hframe.2.2, hmax]
      have hdeq : ((entry e).setRecoveryStart.done = false) := by
        rw [hframe.1, hdone]
      have hstep := ih
        { (entry e).setRecoveryStart with
            Failures := 0, Recoveries := (entry e).setRecoveryStart.Recoveries + 1 }
        (by simpa using hdeq) (by simp only; omega)
      simp only [runSeqLoop, if_pos hcond, hdone e, Bool.false_eq_true, if_neg,
        ite_false]
      refine ⟨?_, hstep.2⟩
      rw [hstep.1]
      simp only
      omega
    · refine ⟨?_, by simpa [runSeqLoop, if_neg hcond] using hd⟩
      simp only [runSeqLoop, if_neg hcond]
      omega

/-- **C6.** When the entry point never marks done and leaves the
recovery counters alone, the sequential runner performs exactly
`MaxRecoveries + 1` run attempts — it iterates while
`Recoveries ≤ MaxRecoveries` from a reset `Recoveries = 0`, resetting
`Failures` and incrementing `Recoveries` after each failed attempt —
and then gives up with the done flag still unset. -/
theorem runAsSequential_attempt_count (entry : Engine → Engine) (engine : Engine)
    (hdone : ∀ e, (entry e).done = false)
    (hrec : ∀ e, (entry e).Recoveries = e.Recoveries)
    (hmax : ∀ e, (entry e).MaxRecoveries = e.MaxRecoveries)
    (hm : 0 ≤ engine.MaxRecoveries) (hd : engine.done = false) :
    (runAsSequential entry engine).2 = engine.MaxRecoveries.toNat + 1 ∧
    (runAsSequential entry engine).1.done = false := by
  have h := runSeqLoop_count entry hdone hrec hmax
    (engine.MaxRecoveries + 1).toNat { engine with Recoveries := 0 }
    (by simpa using hd) (by simp only; omega)
  unfold runAsSequential
  refine ⟨?_, h.2⟩
  rw [h.1]
  simp only
  omega

/-- Witness for C6: an always-failing, never-done entry point with
`maxFailures = 2`, `maxRecoveries = 1` gives exactly 2 run attempts and
no done flag. -/
theorem runAsSequential_attempt_count_witness :
    (runAsSequential (fun e => { e with Failures := e.Failures + 1, done := false })
        { MaxFailures := 2, MaxRecoveries := 1 : Engine }).2 = 2 ∧
    (runAsSequential (fun e => { e with Failures := e.Failures + 1, done := false })
        { MaxFailures := 2, MaxRecoveries := 1 : Engine }).1.done = false := by
  have h := runAsSequential_attempt_count
    (fun e => { e with Failures := e.Failures + 1, done := false })
    { MaxFailures := 2, MaxRecoveries := 1 : Engine }
    (fun e => rfl) (fun e => rfl) (fun e => rfl) (by decide) rfl
  simpa using h

/-! ## C7: the replica coordinator's counter state machine -/

/-- **C7.** The coordinator starts at `(activeReplicas, capacity) =
(0, MaxReplicas)` and exits exactly when both counters are zero; a step
is either draining one replica signal or—only when
`activeEngines < maxEngines`—spawning, which increments the active
count; consuming a finished replica's signals decrements the active
count by one, and decrements the capacity by one exactly for a replica
that exhausted its recovery budget. -/
theorem coordinator_state_machine :
    (∀ engine : Engine,
      coordInit engine = { activeEngines := 0, maxEngines := engine.MaxReplicas }) ∧
    (∀ s : CoordState, coordShouldExit s = true ↔
      (s.activeEngines = 0 ∧ s.maxEngines = 0)) ∧
    (∀ s s' : CoordState, CoordStep s s' ↔
      (coordShouldExit s = false ∧
        ((∃ outcome msg, msg ∈ spawnEngineSignals outcome ∧ s' = coordRecv s msg) ∨
         (s.activeEngines < s.maxEngines ∧
           s' = { s with activeEngines := s.activeEngines + 1 })))) ∧
    (∀ (s : CoordState) (outcome : ReplicaOutcome),
      ((spawnEngineSignals outcome).foldl coordRecv s).activeEngines =
        s.activeEngines - 1) ∧
    (∀ (s : CoordState) (outcome : ReplicaOutcome),
      ((spawnEngineSignals outcome).foldl coordRecv s).maxEngines =
        if outcome = ReplicaOutcome.exhausted then s.maxEngines - 1
        else s.maxEngines) := by
  refine ⟨fun engine => rfl, fun s => ?_, fun s s' => ?_, fun s outcome => ?_,
    fun s outcome => ?_⟩
  · simp [coordShouldExit]
  · constructor
    · intro h
      cases h with
      | recv outcome msg hmsg hrun =>
        exact ⟨hrun, Or.inl ⟨outcome, msg, hmsg, rfl⟩⟩
      | spawn hrun hcap =>
        exact ⟨hrun, Or.inr ⟨hcap, rfl⟩⟩
    · rintro ⟨hrun, ⟨outcome, msg, hmsg, rfl⟩ | ⟨hcap, rfl⟩⟩
      · exact CoordStep.recv s outcome msg hmsg hrun
      · exact CoordStep.spawn s hrun hcap
  · cases outcome <;> simp [spawnEngineSignals, coordRecv] <;> omega
  · cases outcome <;> simp [spawnEngineSignals, coordRecv] <;> omega

end Courtsdk
